import Mathlib

/-!
# Verification of the LOBPCG solver (`scipy/sparse/linalg/eigen/lobpcg/lobpcg.py`)

A shallow embedding of the solver's algorithmic skeleton:

* the eigenpair-selection rule applied after each small dense (generalized)
  eigensolve (`argsort`, `selectIndices`, `selectedLambda`, source lines 281-287
  and 410-419);
* the active-mask deflation update (`updateMask`, `maskAfter`, lines 323-324);
* the main iteration loop's control flow and history bookkeeping
  (`runLoop`, `lobpcgIterPath`, lines 295-489), with the per-iteration dense
  linear algebra (residual-norm computation, Gram assembly, `eigh`) supplied
  by oracle functions, since those are calls into external dense routines
  (`scipy.linalg.eigh`, `cholesky`, `inv`) that the spec treats as black boxes;
* the orchestrator's input validation and branch decision (`lobpcgBranch`,
  `lobpcgTopR`, lines 190-228 and 480-489);
* the B-orthonormalization routine `_b_orthonormalize` (lines 100-118) over
  exact rational matrices, with the Cholesky factorization as an oracle.

Real numbers stand in for floating-point values (exact-arithmetic reading of
the spec); rationals are used wherever concrete evaluation is needed.
-/

namespace Lobpcg

open Matrix

/-! ## Eigenpair selection after a small dense eigensolve (lines 410-419)

The code does
  `ii = np.argsort(_lambda)[:sizeX]` and then `if largest: ii = ii[::-1]`,
then keeps `_lambda[ii]` and the matching eigenvector columns. -/

/-- `np.argsort`: indices that sort `xs` ascending (stable). -/
def argsort {α : Type} [LinearOrder α] [Inhabited α] (xs : List α) : List ℕ :=
  List.insertionSort (fun i j => xs.getD i default ≤ xs.getD j default)
    (List.range xs.length)

/-- Lines 412-414: `ii = np.argsort(_lambda)[:sizeX]; if largest: ii = ii[::-1]`. -/
def selectIndices {α : Type} [LinearOrder α] [Inhabited α]
    (lam : List α) (sizeX : ℕ) (largest : Bool) : List ℕ :=
  let ii := (argsort lam).take sizeX
  if largest then ii.reverse else ii

/-- Line 418: the eigenvalues kept by the loop, `_lambda[ii]`. -/
def selectedLambda {α : Type} [LinearOrder α] [Inhabited α]
    (lam : List α) (sizeX : ℕ) (largest : Bool) : List α :=
  (selectIndices lam sizeX largest).map (fun i => lam.getD i default)

/-- Modelled from the spec (claim C1 / spec 4.4 step 12): when `largest` is
true the *selection itself* is reversed, i.e. the `sizeX` pairs with the
largest eigenvalues are kept, in descending order; otherwise the `sizeX`
smallest, ascending. -/
def selectedLambdaSpec {α : Type} [LinearOrder α] [Inhabited α]
    (lam : List α) (sizeX : ℕ) (largest : Bool) : List α :=
  if largest then
    ((argsort lam).reverse.take sizeX).map (fun i => lam.getD i default)
  else
    ((argsort lam).take sizeX).map (fun i => lam.getD i default)

/-! ## Active-mask deflation (lines 295, 323-324)

`activeMask = np.ones((sizeX,), dtype=np.bool)` initially, and each iteration
`ii = np.where(residualNorms > residualTolerance, True, False);
 activeMask = activeMask & ii`. -/

/-- Lines 323-324: elementwise `activeMask & (residualNorms > residualTolerance)`. -/
def updateMask {α : Type} [LinearOrder α] (tol : α) (mask : List Bool)
    (norms : List α) : List Bool :=
  List.zipWith (fun m r => m && decide (r > tol)) mask norms

/-- The active mask after `t` iterations of the main loop, given the
residual-norm vector produced at each iteration (the norms are computed by
dense linear algebra the mask does not influence backwards, so they enter as
an arbitrary sequence). `maskAfter _ _ k 0` is the all-true initial mask of
length `k = sizeX` (line 295). -/
def maskAfter {α : Type} [LinearOrder α] (tol : α) (norms : ℕ → List α)
    (k : ℕ) : ℕ → List Bool
  | 0 => List.replicate k true
  | t + 1 => updateMask tol (maskAfter tol norms k t) (norms t)

/-! ## The main iteration loop (lines 295-489)

State observed by the claims: the current Ritz values `_lambda`, the active
mask, and the two history lists.  The per-iteration dense linear algebra is
supplied by two oracles:

* `norms t` — the residual-norm vector computed at iteration `t`
  (lines 315-319; a function of the current blocks, which the control flow
  never inspects except through the mask update);
* `eigh t` — the full ascending eigenvalue list of the small generalized
  eigenproblem at iteration `t` (line 411), with `none` standing for a raised
  numerical error anywhere between the break check and the small solve
  (Cholesky failure inside `_b_orthonormalize` at lines 364/370, the symmetry
  assertions at lines 403-404, or `eigh` itself): any such exception aborts
  the whole call. -/

/-- Inputs of one run of the main loop. -/
structure LoopInput (α : Type) where
  tol : α
  sizeX : ℕ
  largest : Bool
  initLam : List α
  norms : ℕ → List α
  eigh : ℕ → Option (List α)

/-- Loop state: lines 282-309 initialize it, each iteration updates it. -/
structure IterState (α : Type) where
  lam : List α
  mask : List Bool
  lamHist : List (List α)
  resHist : List (List α)
deriving DecidableEq

/-- How the loop ends: break at line 333-335 (`converged`), loop bound
exhausted (`maxReached`), or a numerical exception propagating out
(`failure`). -/
inductive LoopExit (α : Type) where
  | converged : IterState α → LoopExit α
  | maxReached : IterState α → LoopExit α
  | failure : LoopExit α
deriving DecidableEq

/-- Lines 311-468: the `for iterationNumber in xrange(maxIterations)` loop.
`fuel` is the number of iterations still allowed, `t` the iteration number.
Each entered iteration appends the residual norms to the history (line 321),
ANDs the mask (lines 323-324), breaks if no column is active (lines 328-335),
otherwise runs the dense step and keeps the `sizeX` eigenvalues chosen by
`selectedLambda` (lines 411-421). -/
def runLoop {α : Type} [LinearOrder α] [Inhabited α] (inp : LoopInput α) :
    ℕ → ℕ → IterState α → LoopExit α
  | 0, _, s => .maxReached s
  | fuel + 1, t, s =>
      let rN := inp.norms t
      let newMask := updateMask inp.tol s.mask rN
      let s1 : IterState α :=
        { s with mask := newMask, resHist := s.resHist ++ [rN] }
      if newMask.count true = 0 then
        .converged s1
      else
        match inp.eigh t with
        | none => .failure
        | some lamAll =>
            let newLam := selectedLambda lamAll inp.sizeX inp.largest
            runLoop inp fuel (t + 1)
              { lam := newLam, mask := newMask,
                lamHist := s1.lamHist ++ [newLam], resHist := s1.resHist }

/-- Lines 282-309: initial Ritz values already in the history (line 297),
all-true mask (line 295), empty residual-norm history (line 298). -/
def initState {α : Type} (inp : LoopInput α) : IterState α :=
  { lam := inp.initLam, mask := List.replicate inp.sizeX true,
    lamHist := [inp.initLam], resHist := [] }

/-- Shape of the value returned by `lobpcg` on the iterative path
(lines 480-489): eigenvalues and eigenvectors always, histories only when
the corresponding flag is set.  (The eigenvector block is an opaque dense
matrix with no claim about its value on this path, so it is not carried.) -/
inductive ReturnShape (α : Type) where
  | pair (lam : List α)
  | withLamHist (lam : List α) (lamHist : List (List α))
  | withResHist (lam : List α) (resHist : List (List α))
  | withBoth (lam : List α) (lamHist : List (List α)) (resHist : List (List α))
deriving DecidableEq

/-- Lines 480-489: the four-way return dispatch on the two history flags. -/
def lobpcgFinish {α : Type} (retLam retRes : Bool) (s : IterState α) :
    ReturnShape α :=
  if retLam then
    if retRes then .withBoth s.lam s.lamHist s.resHist
    else .withLamHist s.lam s.lamHist
  else
    if retRes then .withResHist s.lam s.resHist
    else .pair s.lam

/-- The iterative path of `lobpcg` (everything from line 295 on): run the
loop, then return; `none` is a numerical exception escaping the call.  The
residual norms recomputed after the loop (lines 470-474) are only printed at
high verbosity, never returned nor appended to any history. -/
def lobpcgIterPath {α : Type} [LinearOrder α] [Inhabited α] (inp : LoopInput α)
    (maxIterations : ℕ) (retLam retRes : Bool) : Option (ReturnShape α) :=
  match runLoop inp maxIterations 0 (initState inp) with
  | .failure => none
  | .converged s => some (lobpcgFinish retLam retRes s)
  | .maxReached s => some (lobpcgFinish retLam retRes s)

/-! ## Orchestrator: validation and branch decision (lines 183-228)

`X` enters as its shape tuple (`blockVectorX.shape`), `Y` as `none` or its
column count `sizeY` (line 190-193).  The dense operators `A`, `B`, `M` are
built only after validation succeeds (lines 203-205) and are assumed
shape-correct, as the claims under verification never exercise the
`ShapeMismatch` branch of `_makeOperator`. -/

/-- Outcome of lines 196-228: which path `lobpcg` takes before any iteration. -/
inductive BranchDecision where
  | invalidInput
  | notImplemented
  | denseFallback (lo hi : ℕ)
  | iterate (n sizeX : ℕ)
deriving DecidableEq

/-- Lines 190-228: `sizeY` default 0; reject non-rank-2 `X` (line 196) and
`sizeX > n` (line 200); if `(n - sizeY) < 5 * sizeX` (in exact integers, as
in Python) reject constraints with `NotImplementedError` (line 211) or
delegate to dense `eigh` on the closed index range `(n - sizeX, n - 1)` /
`(0, sizeX - 1)` (lines 216-223); otherwise iterate. -/
def lobpcgBranch (xshape : List ℕ) (ysize : Option ℕ) (largest : Bool) :
    BranchDecision :=
  let sizeY := ysize.getD 0
  if xshape.length ≠ 2 then .invalidInput
  else
    let n := xshape.getD 0 0
    let sizeX := xshape.getD 1 0
    if sizeX > n then .invalidInput
    else if (n : ℤ) - (sizeY : ℤ) < 5 * (sizeX : ℤ) then
      match ysize with
      | some _ => .notImplemented
      | none =>
          if largest then .denseFallback (n - sizeX) (n - 1)
          else .denseFallback 0 (sizeX - 1)
    else .iterate n sizeX

/-- Lines 225-226: `if residualTolerance is None:
residualTolerance = np.sqrt(1e-15) * n` (note the hardcoded `1e-15`). -/
noncomputable def resolvedResidualTolerance (tol : Option ℝ) (n : ℕ) : ℝ :=
  tol.getD (Real.sqrt (1 / 10 ^ 15) * n)

/-- Modelled from the spec: the claimed default threshold
`sqrt(machine-epsilon) * n`, where machine epsilon of the float64 working
precision is `2^-52` (`np.finfo(np.float64).eps`). -/
noncomputable def machineEpsDefaultTolerance (n : ℕ) : ℝ :=
  Real.sqrt (1 / 2 ^ 52) * n

/-- Everything `lobpcg` can do, seen from the caller. -/
inductive LobpcgOutcome (α : Type) where
  | invalidInput
  | notImplemented
  | denseDirect (result : List α × List (List α))
  | numericalFailure
  | iterResult (r : ReturnShape α)

/-- The whole of `lobpcg` over exact reals: validate and branch
(lines 196-223, `denseSolve lo hi` being the external
`eigh(A_dense, B_dense, eigvals=(lo, hi))` whose value is returned as-is at
line 223), else resolve the tolerance default (lines 225-226), cap the
iteration count at `n` (line 228), and run the iterative path. -/
noncomputable def lobpcgTopR (xshape : List ℕ) (ysize : Option ℕ)
    (tol : Option ℝ) (maxiter : ℕ) (largest retLam retRes : Bool)
    (denseSolve : ℕ → ℕ → List ℝ × List (List ℝ))
    (norms : ℕ → List ℝ) (eighO : ℕ → Option (List ℝ)) (initLam : List ℝ) :
    LobpcgOutcome ℝ :=
  match lobpcgBranch xshape ysize largest with
  | .invalidInput => .invalidInput
  | .notImplemented => .notImplemented
  | .denseFallback lo hi => .denseDirect (denseSolve lo hi)
  | .iterate n sizeX =>
      let residualTolerance := resolvedResidualTolerance tol n
      let maxIterations := min n maxiter
      match lobpcgIterPath
          ⟨residualTolerance, sizeX, largest, initLam, norms, eighO⟩
          maxIterations retLam retRes with
      | none => .numericalFailure
      | some r => .iterResult r

/-! ## `_b_orthonormalize` (lines 100-118)

Blocks are exact rational `n × k` matrices.  `scipy.linalg.cholesky` (upper
triangular, `A = Rᵀ·R`) and the subsequent `inv` are external dense routines;
`cholesky` enters as an oracle returning `none` when the Gram matrix is not
positive definite (the raised `LinAlgError` propagates out of
`_b_orthonormalize`, which has no handler).  `inv` is the matrix inverse; on
the success path its argument is the invertible Cholesky factor. -/

/-- Lines 102-106: the effective `blockVectorBV` — the supplied one, else
`B(blockVectorV)`, else (when `B is None`) `blockVectorV` itself (shared
data, never rescaled afterwards on that branch). -/
def bvOf {n k : ℕ} (B : Option (Matrix (Fin n) (Fin n) ℚ))
    (V : Matrix (Fin n) (Fin k) ℚ)
    (BVopt : Option (Matrix (Fin n) (Fin k) ℚ)) : Matrix (Fin n) (Fin k) ℚ :=
  match BVopt, B with
  | some W, _ => W
  | none, some Bm => Bm * V
  | none, none => V

/-- `scipy.linalg.inv` on an exact rational square matrix, written
executably as `det⁻¹ • adjugate`; `matInv_eq_inv` identifies it with
Mathlib's nonsingular inverse. -/
def matInv {k : ℕ} (A : Matrix (Fin k) (Fin k) ℚ) : Matrix (Fin k) (Fin k) ℚ :=
  A.det⁻¹ • A.adjugate

theorem matInv_eq_inv {k : ℕ} (A : Matrix (Fin k) (Fin k) ℚ) :
    matInv A = A⁻¹ := by
  rw [matInv, Matrix.inv_def, Ring.inverse_eq_inv]

/-- Lines 100-118: Gram matrix `Vᵀ·BV`, Cholesky factor `R`, its inverse,
new `V := V·R⁻¹`, and `BV := BV·R⁻¹` only when `B` is present; with
`retInvR` the inverse factor is returned as well. -/
def b_orthonormalize {n k : ℕ}
    (chol : Matrix (Fin k) (Fin k) ℚ → Option (Matrix (Fin k) (Fin k) ℚ))
    (B : Option (Matrix (Fin n) (Fin n) ℚ)) (V : Matrix (Fin n) (Fin k) ℚ)
    (BVopt : Option (Matrix (Fin n) (Fin k) ℚ)) (retInvR : Bool) :
    Option (Matrix (Fin n) (Fin k) ℚ × Matrix (Fin n) (Fin k) ℚ ×
      Option (Matrix (Fin k) (Fin k) ℚ)) :=
  match chol (Vᵀ * bvOf B V BVopt) with
  | none => none
  | some R =>
      some (V * matInv R,
        (match B with
         | some _ => bvOf B V BVopt * matInv R
         | none => bvOf B V BVopt),
        if retInvR then some (matInv R) else none)

/-! ## Helper lemmas -/

theorem length_maskAfter {α : Type} [LinearOrder α] (tol : α)
    (norms : ℕ → List α) (k : ℕ) (hlen : ∀ t, (norms t).length = k) :
    ∀ t, (maskAfter tol norms k t).length = k
  | 0 => by simp [maskAfter]
  | t + 1 => by
      simp [maskAfter, updateMask, List.length_zipWith,
        length_maskAfter tol norms k hlen t, hlen t]

theorem updateMask_getElem_false {α : Type} [LinearOrder α] (tol : α)
    (mask : List Bool) (norms : List α) (i : ℕ)
    (h : mask[i]? = some false) (hlen : mask.length ≤ norms.length) :
    (updateMask tol mask norms)[i]? = some false := by
  have hi : i < mask.length := by
    rcases Nat.lt_or_ge i mask.length with h' | h'
    · exact h'
    · rw [List.getElem?_eq_none (by simpa using h')] at h
      cases h
  rw [updateMask, List.getElem?_zipWith_eq_some]
  exact ⟨false, norms[i], h, List.getElem?_eq_getElem (by omega), by simp⟩

theorem lobpcgBranch_dense (n sizeX : ℕ) (hval : sizeX ≤ n)
    (hcond : (n : ℤ) < 5 * (sizeX : ℤ)) (largest : Bool) :
    lobpcgBranch [n, sizeX] none largest =
      .denseFallback (if largest then n - sizeX else 0)
        (if largest then n - 1 else sizeX - 1) := by
  simp only [lobpcgBranch, List.getD_cons_zero, List.getD_cons_succ,
    Option.getD_none]
  rw [if_neg (by simp), if_neg (by omega), if_pos (by omega)]
  cases largest <;> simp

theorem lobpcgBranch_constrained (n sizeX m : ℕ) (hval : sizeX ≤ n)
    (hcond : (n : ℤ) - (m : ℤ) < 5 * (sizeX : ℤ)) (largest : Bool) :
    lobpcgBranch [n, sizeX] (some m) largest = .notImplemented := by
  simp only [lobpcgBranch, List.getD_cons_zero, List.getD_cons_succ,
    Option.getD_some]
  rw [if_neg (by simp), if_neg (by omega), if_pos (by omega)]

/-- Oracles used by concrete witnesses of the dense-fallback path; their
values are irrelevant there. -/
def dsProbe : ℕ → ℕ → List ℝ × List (List ℝ) := fun _ _ => ([], [])

def normsProbe : ℕ → List ℝ := fun _ => []

def eighProbe : ℕ → Option (List ℝ) := fun _ => none

/-! ## Claims -/

/-- C1: at every loop iteration, after `eigh(gramA, gramB)` returns all
eigenpairs in ascending order, the code keeps
`argsort(_lambda)[:sizeX]`, reversed when `largest` — i.e. the `sizeX`
*smallest* eigenvalues in descending order — whereas the claim (and the
docstring, "when True, solve for the largest eigenvalues") requires the
`sizeX` *largest*.  At the ascending eigenvalue list `[1, 2, 3]` with
`sizeX = 2` and `largest = true` the code keeps `[2, 1]`, not `[3, 2]`. -/
theorem loopSelection_largest_keeps_smallest :
    selectedLambda ([1, 2, 3] : List ℚ) 2 true = [2, 1] ∧
    selectedLambdaSpec ([1, 2, 3] : List ℚ) 2 true = [3, 2] ∧
    selectedLambda ([1, 2, 3] : List ℚ) 2 true ≠
      selectedLambdaSpec ([1, 2, 3] : List ℚ) 2 true := by
  decide

/-- C4: the active mask is monotonically non-increasing across iterations of
the main loop: it starts all true, its only update is the elementwise AND
with `residualNorms > tol` (lines 323-324), so once a column's mask is false
at iteration `t` it is false at every iteration `t' ≥ t`, whatever residual
norms later iterations produce. -/
theorem activeMask_monotone {α : Type} [LinearOrder α] (tol : α)
    (norms : ℕ → List α) (k : ℕ) (hlen : ∀ t, (norms t).length = k)
    (i t t' : ℕ) (hle : t ≤ t')
    (hf : (maskAfter tol norms k t)[i]? = some false) :
    (maskAfter tol norms k t')[i]? = some false := by
  induction t', hle using Nat.le_induction with
  | base => exact hf
  | succ m _ ih =>
      have hm := length_maskAfter tol norms k hlen m
      exact updateMask_getElem_false tol _ _ i ih (by rw [hm, hlen m])

/-- Witness for C4: with tolerance `0`, one column whose residual norm is `0`
at every iteration, the column is deflated at iteration 1 and stays deflated
at iteration 3. -/
theorem activeMask_monotone_witness :
    (maskAfter (0 : ℚ) (fun _ => [0]) 1 3)[0]? = some false :=
  activeMask_monotone (0 : ℚ) (fun _ => [0]) 1 (fun _ => rfl) 0 1 3
    (by norm_num) (by decide)

/-- C2: for every call with a genuine `n × sizeX` block `X`, no constraint
block, and `(n - sizeY) < 5 * sizeX` (here `sizeY = 0`), `lobpcg` does not
iterate: it delegates to the external dense symmetric eigensolver on the
closed rank range `[n - sizeX, n - 1]` when `largest`, `[0, sizeX - 1]`
otherwise, and returns that result directly, whatever the other arguments
are. -/
theorem denseFallback_delegates (n sizeX : ℕ) (hval : sizeX ≤ n)
    (hcond : (n : ℤ) < 5 * (sizeX : ℤ)) (largest rl rr : Bool)
    (tol : Option ℝ) (maxiter : ℕ) (ds : ℕ → ℕ → List ℝ × List (List ℝ))
    (norms : ℕ → List ℝ) (eighO : ℕ → Option (List ℝ)) (initLam : List ℝ) :
    lobpcgTopR [n, sizeX] none tol maxiter largest rl rr ds norms eighO
        initLam =
      .denseDirect (ds (if largest then n - sizeX else 0)
        (if largest then n - 1 else sizeX - 1)) := by
  rw [lobpcgTopR, lobpcgBranch_dense n sizeX hval hcond largest]

/-- Witness for C2: `n = 10`, `sizeX = 5`, `Y` absent, `10 < 25`, solving for
largest: the call returns the dense solve of the range `[5, 9]` directly. -/
theorem denseFallback_delegates_witness :
    lobpcgTopR [10, 5] none none 20 true false false dsProbe normsProbe
        eighProbe [] =
      .denseDirect (dsProbe 5 9) :=
  denseFallback_delegates 10 5 (by norm_num) (by norm_num) true false false
    none 20 dsProbe normsProbe eighProbe []

/-- C6 (amended): the validation at lines 196-201 rejects, before any
operator is built, every `X` whose shape is not rank 2 and every rank-2 `X`
with `sizeX > n`; a `k = 0` block, however, is *not* rejected (there is no
`k ≥ 1` check) — see the counterexample. -/
theorem invalidX_rejected (xshape : List ℕ) (ysize : Option ℕ)
    (largest : Bool)
    (h : xshape.length ≠ 2 ∨ xshape.getD 1 0 > xshape.getD 0 0) :
    lobpcgBranch xshape ysize largest = .invalidInput := by
  simp only [lobpcgBranch]
  rcases h with h | h
  · rw [if_pos h]
  · by_cases h2 : xshape.length ≠ 2
    · rw [if_pos h2]
    · rw [if_neg h2, if_pos h]

/-- Witness for C6 (amended): a `2 × 3` block (`k = 3 > n = 2`) is rejected. -/
theorem invalidX_rejected_witness :
    lobpcgBranch [2, 3] none true = .invalidInput :=
  invalidX_rejected [2, 3] none true (Or.inr (by decide))

/-- Counterexample to C6 as stated: an `n × 0` block (`k = 0`, so not a
genuine block with `k ≥ 1`) is not rejected — with `n = 3` the call falls
through validation into the iterative path. -/
theorem emptyBlock_not_rejected :
    lobpcgBranch [3, 0] none true = .iterate 3 0 ∧
    lobpcgBranch [3, 0] none true ≠ .invalidInput := by
  decide

/-- C7: whenever the dense-fallback condition `(n - sizeY) < 5 * sizeX`
holds and a constraint block `Y` (with `m` columns) is supplied, `lobpcg`
raises `NotImplementedError` — it neither drops the constraints nor runs the
dense solver. -/
theorem constrainedFallback_notImplemented (n sizeX m : ℕ) (hval : sizeX ≤ n)
    (hcond : (n : ℤ) - (m : ℤ) < 5 * (sizeX : ℤ)) (largest rl rr : Bool)
    (tol : Option ℝ) (maxiter : ℕ) (ds : ℕ → ℕ → List ℝ × List (List ℝ))
    (norms : ℕ → List ℝ) (eighO : ℕ → Option (List ℝ)) (initLam : List ℝ) :
    lobpcgTopR [n, sizeX] (some m) tol maxiter largest rl rr ds norms eighO
        initLam = .notImplemented := by
  rw [lobpcgTopR, lobpcgBranch_constrained n sizeX m hval hcond largest]

/-- Witness for C7: `n = 10`, `sizeX = 5`, one constraint column:
`(10 - 1) < 25`, so the call fails with `NotImplementedError`. -/
theorem constrainedFallback_notImplemented_witness :
    lobpcgTopR [10, 5] (some 1) none 20 true true true dsProbe normsProbe
        eighProbe [] = .notImplemented :=
  constrainedFallback_notImplemented 10 5 1 (by norm_num) (by norm_num)
    true true true none 20 dsProbe normsProbe eighProbe []

/-- C9: on the dense-fallback path the two history flags are silently
ignored — the return value is exactly the dense eigensolver's pair for every
flag combination — whereas on the iterative path the flags extend the
returned tuple with the corresponding histories (lines 480-489). -/
theorem historyFlags_fallback_ignored (n sizeX : ℕ) (hval : sizeX ≤ n)
    (hcond : (n : ℤ) < 5 * (sizeX : ℤ)) (largest : Bool) (tol : Option ℝ)
    (maxiter : ℕ) (ds : ℕ → ℕ → List ℝ × List (List ℝ))
    (norms : ℕ → List ℝ) (eighO : ℕ → Option (List ℝ)) (initLam : List ℝ) :
    (∀ rl rr : Bool,
      lobpcgTopR [n, sizeX] none tol maxiter largest rl rr ds norms eighO
          initLam =
        .denseDirect (ds (if largest then n - sizeX else 0)
          (if largest then n - 1 else sizeX - 1))) ∧
    (∀ s : IterState ℝ,
      lobpcgFinish true true s = .withBoth s.lam s.lamHist s.resHist ∧
      lobpcgFinish true false s = .withLamHist s.lam s.lamHist ∧
      lobpcgFinish false true s = .withResHist s.lam s.resHist ∧
      lobpcgFinish false false s = .pair s.lam) := by
  refine ⟨fun rl rr => ?_, fun s => ⟨rfl, rfl, rfl, rfl⟩⟩
  rw [lobpcgTopR, lobpcgBranch_dense n sizeX hval hcond largest]

/-- Witness for C9: `n = 7`, `sizeX = 3`, both history flags set — the
fallback still returns the bare dense pair for the range `[0, 2]`. -/
theorem historyFlags_fallback_ignored_witness :
    lobpcgTopR [7, 3] none none 5 false true true dsProbe normsProbe
        eighProbe [] =
      .denseDirect (dsProbe 0 2) :=
  (historyFlags_fallback_ignored 7 3 (by norm_num) (by norm_num) false none
    5 dsProbe normsProbe eighProbe []).1 true true

theorem bvOf_some_none {n k : ℕ} (Bm : Matrix (Fin n) (Fin n) ℚ)
    (V : Matrix (Fin n) (Fin k) ℚ) : bvOf (some Bm) V none = Bm * V := rfl

/-- C3: for every block `V` whose `B`-Gram matrix `Vᵀ·B·V` is symmetric
positive definite — witnessed by the external Cholesky routine returning an
invertible factor `R` with `Rᵀ·R =` Gram — `_b_orthonormalize` succeeds,
returns `V' = V·R⁻¹` (and `B·V·R⁻¹`), and `V'ᵀ·B·V'` is exactly the
identity in exact arithmetic; when the Gram matrix is not positive definite
the Cholesky call fails and the error propagates instead of a value being
returned. -/
theorem b_orthonormalize_correct {n k : ℕ}
    (chol : Matrix (Fin k) (Fin k) ℚ → Option (Matrix (Fin k) (Fin k) ℚ))
    (Bm : Matrix (Fin n) (Fin n) ℚ) (V : Matrix (Fin n) (Fin k) ℚ) :
    (∀ R, chol (Vᵀ * (Bm * V)) = some R → Rᵀ * R = Vᵀ * (Bm * V) →
      IsUnit R.det →
      b_orthonormalize chol (some Bm) V none false =
        some (V * R⁻¹, (Bm * V) * R⁻¹, none) ∧
      (V * R⁻¹)ᵀ * (Bm * (V * R⁻¹)) = 1) ∧
    (chol (Vᵀ * (Bm * V)) = none →
      b_orthonormalize chol (some Bm) V none false = none) := by
  constructor
  · intro R hchol hfact hdet
    constructor
    · unfold b_orthonormalize
      rw [bvOf_some_none, hchol]
      simp [matInv_eq_inv]
    · have hdetT : IsUnit (Rᵀ).det := by rwa [Matrix.det_transpose]
      have h1 : (V * R⁻¹)ᵀ * (Bm * (V * R⁻¹)) =
          (R⁻¹)ᵀ * ((Vᵀ * (Bm * V)) * R⁻¹) := by
        rw [Matrix.transpose_mul]
        simp only [Matrix.mul_assoc]
      rw [h1, ← hfact, Matrix.mul_assoc Rᵀ R R⁻¹,
        Matrix.mul_nonsing_inv R hdet, Matrix.mul_one,
        Matrix.transpose_nonsing_inv, Matrix.nonsing_inv_mul Rᵀ hdetT]
  · intro hfail
    unfold b_orthonormalize
    rw [bvOf_some_none, hfail]

/-- A Cholesky oracle for the 1-dimensional witness: `[[4]] = [[2]]ᵀ·[[2]]`. -/
def cholProbe : Matrix (Fin 1) (Fin 1) ℚ → Option (Matrix (Fin 1) (Fin 1) ℚ) :=
  fun _ => some !![2]

/-- A Cholesky oracle that always reports a non-positive-definite input. -/
def cholFailProbe : Matrix (Fin 1) (Fin 1) ℚ →
    Option (Matrix (Fin 1) (Fin 1) ℚ) := fun _ => none

/-- Witness for C3: `n = k = 1`, `B` the identity, `V = [[2]]`, Gram matrix
`[[4]]` with Cholesky factor `[[2]]`; and the failing oracle propagates. -/
theorem b_orthonormalize_correct_witness :
    (b_orthonormalize cholProbe (some 1) !![2] none false =
      some (!![2] * (!![2] : Matrix (Fin 1) (Fin 1) ℚ)⁻¹,
        ((1 : Matrix (Fin 1) (Fin 1) ℚ) * !![2]) *
          (!![2] : Matrix (Fin 1) (Fin 1) ℚ)⁻¹, none) ∧
     ((!![2] : Matrix (Fin 1) (Fin 1) ℚ) *
          (!![2] : Matrix (Fin 1) (Fin 1) ℚ)⁻¹)ᵀ *
        ((1 : Matrix (Fin 1) (Fin 1) ℚ) *
          (!![2] * (!![2] : Matrix (Fin 1) (Fin 1) ℚ)⁻¹)) = 1) ∧
    (b_orthonormalize cholFailProbe (some 1) !![2] none false = none) :=
  ⟨(b_orthonormalize_correct cholProbe 1 !![2]).1 !![2] rfl (by rw [one_mul])
      (by rw [Matrix.det_fin_one]; norm_num [isUnit_iff_ne_zero]),
   (b_orthonormalize_correct cholFailProbe 1 !![2]).2 rfl⟩

/-- Counterexample to C5 as stated: already at `n = 1` the default threshold
the loop uses, `sqrt(1e-15) * n` (line 226), differs from
`sqrt(machine-epsilon) * n` with the float64 machine epsilon `2^-52`
(`1e-15` is about `4.5` times `2^-52`). -/
theorem default_tolerance_not_sqrt_machine_eps :
    resolvedResidualTolerance none 1 ≠ machineEpsDefaultTolerance 1 := by
  intro h
  have h' : Real.sqrt (1 / 10 ^ 15) = Real.sqrt (1 / 2 ^ 52) := by
    simpa [resolvedResidualTolerance, machineEpsDefaultTolerance] using h
  have h2 := (Real.sqrt_inj (by norm_num) (by norm_num)).mp h'
  norm_num at h2

/-- C5 (amended): for every call that does not take the dense fallback and
supplies no tolerance, the per-column residual threshold used by the loop is
`sqrt(1e-15) * n` — `1e-15` being a hardcoded constant, not the machine
epsilon `2^-52` of the float64 working precision; for every `n ≥ 1` it is
strictly larger than the claimed `sqrt(machine-epsilon) * n`. -/
theorem default_tolerance_value (n : ℕ) (hn : 1 ≤ n) :
    resolvedResidualTolerance none n = Real.sqrt (1 / 10 ^ 15) * n ∧
    machineEpsDefaultTolerance n < resolvedResidualTolerance none n := by
  refine ⟨rfl, ?_⟩
  unfold machineEpsDefaultTolerance resolvedResidualTolerance
  simp only [Option.getD_none]
  apply mul_lt_mul_of_pos_right
  · rw [Real.sqrt_lt_sqrt_iff (by norm_num)]
    norm_num
  · exact_mod_cast Nat.pos_of_ne_zero (by omega)

/-- Witness for C5 (amended) at `n = 3`. -/
theorem default_tolerance_value_witness :
    resolvedResidualTolerance none 3 = Real.sqrt (1 / 10 ^ 15) * ((3 : ℕ) : ℝ) ∧
    machineEpsDefaultTolerance 3 < resolvedResidualTolerance none 3 :=
  default_tolerance_value 3 (by norm_num)

theorem runLoop_ne_failure {α : Type} [LinearOrder α] [Inhabited α]
    (inp : LoopInput α) (hnf : ∀ t, inp.eigh t ≠ none) :
    ∀ (fuel t : ℕ) (s : IterState α), runLoop inp fuel t s ≠ .failure := by
  intro fuel
  induction fuel with
  | zero => intro t s; simp [runLoop]
  | succ fuel ih =>
      intro t s
      rw [runLoop]
      split
      · simp
      · cases heq : inp.eigh t with
        | none => exact absurd heq (hnf t)
        | some lamAll => exact ih (t + 1) _

theorem runLoop_maxReached_stats {α : Type} [LinearOrder α] [Inhabited α]
    (inp : LoopInput α) :
    ∀ (fuel t : ℕ) (s s' : IterState α),
      runLoop inp fuel t s = .maxReached s' →
      s'.resHist.length = s.resHist.length + fuel ∧
      s'.lamHist.length = s.lamHist.length + fuel ∧
      (s.lamHist ≠ [] → s'.lamHist.head? = s.lamHist.head?) := by
  intro fuel
  induction fuel with
  | zero =>
      intro t s s' h
      rw [runLoop] at h
      cases h
      simp
  | succ fuel ih =>
      intro t s s' h
      rw [runLoop] at h
      split at h
      · cases h
      · cases heq : inp.eigh t with
        | none => rw [heq] at h; cases h
        | some lamAll =>
            rw [heq] at h
            obtain ⟨h1, h2, h3⟩ := ih (t + 1) _ s' h
            simp only [List.length_append, List.length_cons,
              List.length_nil] at h1 h2
            refine ⟨by omega, by omega, fun hne => ?_⟩
            rw [h3 (by simp), List.head?_append_of_ne_nil _ hne]

theorem runLoop_converged_stats {α : Type} [LinearOrder α] [Inhabited α]
    (inp : LoopInput α) :
    ∀ (fuel t : ℕ) (s s' : IterState α),
      runLoop inp fuel t s = .converged s' →
      s.lamHist.length = s.resHist.length + 1 →
      s'.lamHist.length = s'.resHist.length ∧
      (s.lamHist ≠ [] → s'.lamHist.head? = s.lamHist.head?) := by
  intro fuel
  induction fuel with
  | zero => intro t s s' h _; rw [runLoop] at h; cases h
  | succ fuel ih =>
      intro t s s' h hinv
      rw [runLoop] at h
      split at h
      · cases h
        constructor
        · simp only [List.length_append, List.length_cons, List.length_nil]
          omega
        · intro _; rfl
      · cases heq : inp.eigh t with
        | none => rw [heq] at h; cases h
        | some lamAll =>
            rw [heq] at h
            obtain ⟨h1, h2⟩ := ih (t + 1) _ s' h
              (by simp only [List.length_append, List.length_cons,
                List.length_nil]; omega)
            refine ⟨h1, fun hne => ?_⟩
            rw [h2 (by simp), List.head?_append_of_ne_nil _ hne]

/-- C8: reaching `maxIterations` before every column has converged is not an
error: provided no numerical exception occurs inside an iteration
(`inp.eigh t ≠ none`), the iterative path always returns a value, and a run
that exhausts the iteration bound returns the current eigenvalues and the
requested histories exactly as a converged run would (lines 470-489 contain
no error raise and never consult the convergence flag). -/
theorem maxIterations_not_error {α : Type} [LinearOrder α] [Inhabited α]
    (inp : LoopInput α) (maxIter : ℕ) (rl rr : Bool)
    (hnf : ∀ t, inp.eigh t ≠ none) :
    (∃ r, lobpcgIterPath inp maxIter rl rr = some r) ∧
    (∀ s, runLoop inp maxIter 0 (initState inp) = .maxReached s →
      lobpcgIterPath inp maxIter rl rr = some (lobpcgFinish rl rr s)) := by
  constructor
  · unfold lobpcgIterPath
    cases hx : runLoop inp maxIter 0 (initState inp) with
    | converged s => exact ⟨_, rfl⟩
    | maxReached s => exact ⟨_, rfl⟩
    | failure => exact absurd hx (runLoop_ne_failure inp hnf _ _ _)
  · intro s hs
    unfold lobpcgIterPath
    rw [hs]

/-- A concrete loop input for witnesses: one column whose residual norm
stays `1 > 0 =` tolerance, so it never converges, and a small eigensolve
returning ascending `[2, 3]` each iteration. -/
def loopProbe : LoopInput ℚ :=
  { tol := 0, sizeX := 1, largest := false, initLam := [5],
    norms := fun _ => [1], eigh := fun _ => some [2, 3] }

/-- The state `loopProbe` reaches when stopped by `maxIterations = 2`. -/
def loopProbeFinal : IterState ℚ :=
  { lam := [2], mask := [true], lamHist := [[5], [2], [2]],
    resHist := [[1], [1]] }

/-- Witness for C8: the `loopProbe` run hits the bound of 2 iterations
without converging and still returns a value (with both histories
requested). -/
theorem maxIterations_not_error_witness :
    ∃ r, lobpcgIterPath loopProbe 2 true true = some r :=
  (maxIterations_not_error loopProbe 2 true true
    (fun t => by simp [loopProbe])).1

/-- C10: history bookkeeping of the iterative path.  `lambdaHistory` starts
as `[_lambda]` (line 297) and gains one entry per completed iteration
(line 421); `residualNormsHistory` gains exactly one entry per iteration
entered (line 321, also in the breaking iteration); the residual norms
recomputed after the loop (lines 470-474) are never appended.  Hence a run
stopped by `maxIterations` has `residualNormsHistory` of length
`maxIterations` and `lambdaHistory` one entry longer, still headed by the
initial Ritz values. -/
theorem history_bookkeeping {α : Type} [LinearOrder α] [Inhabited α]
    (inp : LoopInput α) (maxIter : ℕ) :
    (∀ s, runLoop inp maxIter 0 (initState inp) = .maxReached s →
      s.resHist.length = maxIter ∧
      s.lamHist.length = maxIter + 1 ∧
      s.lamHist.length = s.resHist.length + 1 ∧
      s.lamHist.head? = some inp.initLam) ∧
    (∀ s, runLoop inp maxIter 0 (initState inp) = .converged s →
      s.lamHist.length = s.resHist.length ∧
      s.lamHist.head? = some inp.initLam) := by
  constructor
  · intro s h
    obtain ⟨h1, h2, h3⟩ := runLoop_maxReached_stats inp maxIter 0 _ s h
    simp only [initState, List.length_nil, List.length_cons] at h1 h2
    have h4 := h3 (by simp [initState])
    refine ⟨by omega, by omega, by omega, ?_⟩
    simpa [initState] using h4
  · intro s h
    obtain ⟨h1, h2⟩ := runLoop_converged_stats inp maxIter 0 _ s h
      (by simp [initState])
    exact ⟨h1, by simpa [initState] using h2 (by simp [initState])⟩

/-- Witness for C10: the `loopProbe` run stopped after 2 iterations has
residual-norm history `[[1], [1]]` (length 2), eigenvalue history
`[[5], [2], [2]]` (length 3, one longer), headed by the initial values. -/
theorem history_bookkeeping_witness :
    loopProbeFinal.resHist.length = 2 ∧
    loopProbeFinal.lamHist.length = 2 + 1 ∧
    loopProbeFinal.lamHist.length = loopProbeFinal.resHist.length + 1 ∧
    loopProbeFinal.lamHist.head? = some loopProbe.initLam :=
  (history_bookkeeping loopProbe 2).1 loopProbeFinal (by decide)

end Lobpcg
